import Mathlib

/-!
Verification of the medicine-reminder subsystem of `health_app.py`.

The reminder store is a SQLite table
`reminders (id INTEGER PRIMARY KEY AUTOINCREMENT, med_name TEXT NOT NULL,
dose TEXT, remind_datetime TEXT NOT NULL, notified INTEGER DEFAULT 0, note TEXT)`.
We embed it as a list of records in rowid (insertion) order together with the
AUTOINCREMENT counter: `AUTOINCREMENT` ids are strictly increasing and never
reused, so the next assigned id is the counter value.

Timestamps are parsed by Python's
`datetime.datetime.strptime(s, "%Y-%m-%d %H:%M")`.  CPython compiles the
format to the regex `\d\d\d\d-(1[0-2]|0[1-9]|[1-9])-(3[01]|[12]\d|0[1-9]|[1-9])\s+(2[0-3]|[0-1]\d|\d):([0-5]\d|\d)`
anchored on both sides, then validates the day against the month length
(with the Gregorian leap-year rule) when constructing the `datetime`.
Since every numeric field is delimited by non-digit literals, a maximal
digit run per field with a range check is an exact model of the regex with
backtracking.  (We model `\d` / `\s` as ASCII digits / whitespace; the
stored strings come from the same parser on the GUI side.)

`datetime.now() >= rem_dt` compares lexicographically on
(year, month, day, hour, minute, second, ...); `rem_dt` has second = 0, so the
comparison equals a lexicographic comparison of the minute-precision
truncation of `now` against `rem_dt`.
-/

/-- Minute-precision timestamp, as produced by
`strptime(s, "%Y-%m-%d %H:%M")`. -/
structure DateTime where
  year : Nat
  month : Nat
  day : Nat
  hour : Nat
  minute : Nat
deriving DecidableEq, Repr

/-- Python `datetime` comparison `a <= b`, restricted to minute precision:
lexicographic on (year, month, day, hour, minute). -/
def DateTime.le (a b : DateTime) : Bool :=
  if a.year = b.year then
    if a.month = b.month then
      if a.day = b.day then
        if a.hour = b.hour then decide (a.minute ≤ b.minute)
        else decide (a.hour < b.hour)
      else decide (a.day < b.day)
    else decide (a.month < b.month)
  else decide (a.year < b.year)

/-- Consume a maximal run of ASCII digits, accumulating the value and the
number of digits consumed, and return the rest of the characters. -/
def takeDigits : List Char → Nat → Nat → Nat × Nat × List Char
  | [], v, n => (v, n, [])
  | c :: cs, v, n =>
    if c.isDigit then takeDigits cs (v * 10 + (c.toNat - 48)) (n + 1)
    else (v, n, c :: cs)

/-- Gregorian leap-year rule used by Python's `datetime` (`calendar.isleap`). -/
def isLeapYear (y : Nat) : Bool :=
  y % 4 == 0 && (y % 100 != 0 || y % 400 == 0)

/-- Number of days in a month, as validated by the `datetime` constructor. -/
def daysInMonth (y m : Nat) : Nat :=
  if m = 2 then (if isLeapYear y then 29 else 28)
  else if m = 4 ∨ m = 6 ∨ m = 9 ∨ m = 11 then 30
  else 31

/-- `datetime.datetime.strptime(s, "%Y-%m-%d %H:%M")`, returning `none` where
Python raises `ValueError`: the year is exactly four digits, month / day /
hour / minute are one or two digits inside the regex ranges, the separators
are literal with `\s+` for the space, the whole string must be consumed, and
the `datetime` constructor requires `year >= 1` (MINYEAR) and a day that
exists in the given month.  A four-digit year is at most 9999 = MAXYEAR, so
no upper year check is needed. -/
def parseRemindDT (s : String) : Option DateTime :=
  let (y, ny, r1) := takeDigits s.data 0 0
  if ny ≠ 4 then none else
  match r1 with
  | '-' :: r2 =>
    let (mo, nm, r3) := takeDigits r2 0 0
    if ¬ (1 ≤ mo ∧ mo ≤ 12 ∧ (nm = 1 ∨ nm = 2)) then none else
    match r3 with
    | '-' :: r4 =>
      let (d, nd, r5) := takeDigits r4 0 0
      if ¬ (1 ≤ d ∧ d ≤ 31 ∧ (nd = 1 ∨ nd = 2)) then none else
      match r5 with
      | c :: r6 =>
        if ¬ c.isWhitespace then none else
        let r7 := r6.dropWhile Char.isWhitespace
        let (h, nh, r8) := takeDigits r7 0 0
        if ¬ (nh = 1 ∨ (nh = 2 ∧ h ≤ 23)) then none else
        match r8 with
        | ':' :: r9 =>
          let (mi, nmi, r10) := takeDigits r9 0 0
          if ¬ (r10 = [] ∧ (nmi = 1 ∨ (nmi = 2 ∧ mi ≤ 59))) then none else
          if 1 ≤ y ∧ d ≤ daysInMonth y mo then some ⟨y, mo, d, h, mi⟩ else none
        | _ => none
      | [] => none
    | _ => none
  | _ => none

/-- One row of the `reminders` table. -/
structure Reminder where
  id : Nat
  med_name : String
  dose : String
  remind_datetime : String
  notified : Bool
  note : String
deriving DecidableEq, Repr

/-- The reminder store: rows in rowid order plus the AUTOINCREMENT counter
(the id the next insert will receive). -/
structure DB where
  reminders : List Reminder
  nextId : Nat
deriving DecidableEq, Repr

/-- Well-formedness maintained by SQLite: ids are distinct (`PRIMARY KEY`) and
below the AUTOINCREMENT counter. -/
def DB.WF (db : DB) : Prop :=
  (db.reminders.map Reminder.id).Nodup ∧ ∀ r ∈ db.reminders, r.id < db.nextId

instance (db : DB) : Decidable db.WF := by
  unfold DB.WF; infer_instance

/-- `add_reminder_to_db`: `INSERT INTO reminders (med_name, dose,
remind_datetime, notified, note) VALUES (?, ?, ?, 0, ?)`.  The row gets the
next AUTOINCREMENT id; `notified` starts at 0. -/
def add_reminder_to_db (med_name dose remind_dt_str note : String) (db : DB) : DB :=
  { reminders := db.reminders ++ [⟨db.nextId, med_name, dose, remind_dt_str, false, note⟩],
    nextId := db.nextId + 1 }

/-- Lexicographic comparison of character lists by code point.  SQLite
compares TEXT with memcmp on the UTF-8 bytes, and on well-formed UTF-8 byte
order coincides with code-point order. -/
def charListLe : List Char → List Char → Bool
  | [], _ => true
  | _ :: _, [] => false
  | a :: as, b :: bs =>
    if a.toNat < b.toNat then true
    else if b.toNat < a.toNat then false
    else charListLe as bs

/-- SQLite TEXT comparison of two strings. -/
def strLe (a b : String) : Bool := charListLe a.data b.data

/-- SQL `ORDER BY remind_datetime` key. -/
def remindLe (a b : Reminder) : Prop :=
  strLe a.remind_datetime b.remind_datetime = true

instance : DecidableRel remindLe := fun a b =>
  inferInstanceAs (Decidable (strLe a.remind_datetime b.remind_datetime = true))

instance : IsTotal Reminder remindLe where
  total a b := by
    unfold remindLe strLe
    generalize a.remind_datetime.data = xs
    generalize b.remind_datetime.data = ys
    induction xs generalizing ys with
    | nil => exact Or.inl rfl
    | cons x xt ih =>
      cases ys with
      | nil => exact Or.inr rfl
      | cons y yt =>
        by_cases h1 : x.toNat < y.toNat
        · simp [charListLe, h1]
        · by_cases h2 : y.toNat < x.toNat
          · simp [charListLe, h1, h2]
          · simpa [charListLe, h1, h2] using ih yt

instance : IsTrans Reminder remindLe where
  trans a b c hab hbc := by
    unfold remindLe strLe at hab hbc ⊢
    revert hab hbc
    generalize a.remind_datetime.data = xs
    generalize b.remind_datetime.data = ys
    generalize c.remind_datetime.data = zs
    induction xs generalizing ys zs with
    | nil => intro _ _; rfl
    | cons x xt ih =>
      intro hab hbc
      cases ys with
      | nil => exact absurd hab (by simp [charListLe])
      | cons y yt =>
        cases zs with
        | nil => exact absurd hbc (by simp [charListLe])
        | cons z zt =>
          simp only [charListLe] at hab hbc ⊢
          by_cases h1 : x.toNat < y.toNat
          · by_cases h2 : y.toNat < z.toNat
            · simp [Nat.lt_trans h1 h2]
            · by_cases h3 : z.toNat < y.toNat
              · simp [h2, h3] at hbc
              · have hxz : x.toNat < z.toNat := by omega
                simp [hxz]
          · by_cases h4 : y.toNat < x.toNat
            · simp [h1, h4] at hab
            · by_cases h2 : y.toNat < z.toNat
              · have hxz : x.toNat < z.toNat := by omega
                simp [hxz]
              · by_cases h3 : z.toNat < y.toNat
                · simp [h2, h3] at hbc
                · have hxz1 : ¬ x.toNat < z.toNat := by omega
                  have hxz2 : ¬ z.toNat < x.toNat := by omega
                  simp [h1, h4] at hab
                  simp [h2, h3] at hbc
                  simp only [if_neg hxz1, if_neg hxz2]
                  exact ih yt zt hab hbc

/-- `get_reminders_from_db(include_notified)`: `SELECT ... FROM reminders
[WHERE notified=0] ORDER BY remind_datetime`, with ties left in rowid order
(stable sort on the scan order). -/
def get_reminders_from_db (include_notified : Bool) (db : DB) : List Reminder :=
  if include_notified then
    List.insertionSort remindLe db.reminders
  else
    List.insertionSort remindLe (db.reminders.filter (fun r => r.notified == false))

/-- `delete_reminder_from_db(rem_id)`: `DELETE FROM reminders WHERE id = ?`.
Deleting an id that is not present changes nothing and raises nothing. -/
def delete_reminder_from_db (rem_id : Nat) (db : DB) : DB :=
  { db with reminders := db.reminders.filter (fun r => r.id ≠ rem_id) }

/-- `mark_reminder_notified(rem_id)`: `UPDATE reminders SET notified = 1
WHERE id = ?`.  Updating an id that is not present changes nothing and
raises nothing. -/
def mark_reminder_notified (rem_id : Nat) (db : DB) : DB :=
  { db with
    reminders := db.reminders.map
      (fun r => if r.id = rem_id then { r with notified := true } else r) }

/-- Observable steps of one poll cycle, in program order:
`marked i` is the `mark_reminder_notified(i)` call, `dispatched r` is the
`wx.CallAfter(show_popup)` dispatch carrying the row snapshot `r` (captured
from the SELECT, i.e. before marking). -/
inductive Event where
  | marked (rem_id : Nat) : Event
  | dispatched (snapshot : Reminder) : Event
deriving DecidableEq, Repr

/-- Loop body of `reminder_check_loop` for one row `r` of the snapshot:
parse `r["remind_datetime"]`; on failure `continue`; if `now >= rem_dt`,
mark the row notified and dispatch the popup for the snapshot. -/
def processRow (now : DateTime) (acc : DB × List Event) (r : Reminder) : DB × List Event :=
  match parseRemindDT r.remind_datetime with
  | none => acc
  | some rem_dt =>
    if rem_dt.le now then
      (mark_reminder_notified r.id acc.1, acc.2 ++ [Event.marked r.id, Event.dispatched r])
    else acc

/-- One poll cycle of `reminder_check_loop` at (minute-truncated) time `now`:
snapshot `get_reminders_from_db(include_notified=False)`, then run the loop
body over the snapshot.  Returns the final store and the event trace. -/
def pollCycleRun (now : DateTime) (db : DB) : DB × List Event :=
  (get_reminders_from_db false db).foldl (processRow now) (db, [])

/-- The store after one poll cycle. -/
def pollCycle (now : DateTime) (db : DB) : DB :=
  (pollCycleRun now db).1

/-- The event trace of one poll cycle. -/
def pollCycleEvents (now : DateTime) (db : DB) : List Event :=
  (pollCycleRun now db).2

/-- Ids of the reminders whose notification was dispatched in a trace. -/
def dispatchedIds (es : List Event) : List Nat :=
  es.filterMap (fun e => match e with
    | Event.dispatched r => some r.id
    | Event.marked _ => none)

/-- `HealthApp.on_add_reminder`, the create path: strip all four fields,
reject when the medicine name or the timestamp text is empty, reject when
`strptime` fails (each rejection shows an error box and inserts nothing),
otherwise insert via `add_reminder_to_db`. -/
def on_add_reminder (name dose dt_str note : String) (db : DB) : Except String DB :=
  if name.trim = "" ∨ dt_str.trim = "" then
    Except.error "Enter medicine name and date/time."
  else
    match parseRemindDT dt_str.trim with
    | none => Except.error "Date/time must be in format YYYY-MM-DD HH:MM"
    | some _ => Except.ok (add_reminder_to_db name.trim dose.trim dt_str.trim note.trim db)

/-- Modelled from the spec: the store contract `markFired(id)` of §4.1, which
"signals `NotFoundError` if id absent" — this error branch is absent from
`mark_reminder_notified` in the source; the definition follows the spec's
words for comparison with the code. -/
def markFiredSpec (rem_id : Nat) (db : DB) : Except String DB :=
  if db.reminders.any (fun r => r.id == rem_id) then
    Except.ok (mark_reminder_notified rem_id db)
  else
    Except.error "NotFoundError"

/-- Modelled from the spec: the store contract `delete(id)` of §4.1, which
"fails with `NotFoundError` if absent" — this error branch is absent from
`delete_reminder_from_db` in the source; the definition follows the spec's
words for comparison with the code. -/
def deleteSpec (rem_id : Nat) (db : DB) : Except String DB :=
  if db.reminders.any (fun r => r.id == rem_id) then
    Except.ok (delete_reminder_from_db rem_id db)
  else
    Except.error "NotFoundError"

/-- Concrete store used to instantiate the theorems: the scenario of spec §8.6
(an "Aspirin" reminder due in the past), one future reminder, one already
notified, and one with an unparseable timestamp. -/
def sampleRem1 : Reminder := ⟨1, "Aspirin", "1 tablet", "2024-01-01 08:00", false, ""⟩

/-- A reminder that is not yet due at `sampleNow`. -/
def sampleRem2 : Reminder := ⟨2, "Ibuprofen", "2 tablets", "2024-01-02 09:30", false, "after food"⟩

/-- A reminder that was already notified. -/
def sampleRemDone : Reminder := ⟨3, "VitaminC", "1", "2024-01-01 07:00", true, ""⟩

/-- A reminder whose timestamp does not parse. -/
def sampleRemBad : Reminder := ⟨4, "Zinc", "1", "not-a-date", false, ""⟩

/-- The sample store holding the four reminders. -/
def sampleDB : DB := ⟨[sampleRem1, sampleRem2, sampleRemDone, sampleRemBad], 5⟩

/-- The current time of the §8.6 scenario: 2024-01-01 08:05. -/
def sampleNow : DateTime := ⟨2024, 1, 1, 8, 5⟩

/-! ### Characterization of one poll cycle -/

/-- The guard of the loop body: the row's timestamp parses and is due at
`now`. -/
def dueBool (now : DateTime) (r : Reminder) : Bool :=
  match parseRemindDT r.remind_datetime with
  | none => false
  | some rem_dt => rem_dt.le now

/-- Ids of the due rows of a snapshot, in snapshot order. -/
def dueIds (now : DateTime) (rows : List Reminder) : List Nat :=
  (rows.filter (dueBool now)).map Reminder.id

/-- Set the notified flag of the rows whose id lies in `s`. -/
def setFired (s : List Nat) (x : Reminder) : Reminder :=
  if x.id ∈ s then { x with notified := true } else x

/-- Events contributed by one row of the snapshot. -/
def traceFor (now : DateTime) (r : Reminder) : List Event :=
  if dueBool now r then [Event.marked r.id, Event.dispatched r] else []

theorem processRow_eq (now : DateTime) (acc : DB × List Event) (r : Reminder) :
    processRow now acc r =
      if dueBool now r then
        (mark_reminder_notified r.id acc.1,
          acc.2 ++ [Event.marked r.id, Event.dispatched r])
      else acc := by
  unfold processRow dueBool
  cases parseRemindDT r.remind_datetime with
  | none => rfl
  | some rem_dt => rfl

theorem dueIds_cons (now : DateTime) (w : Reminder) (ws : List Reminder) :
    dueIds now (w :: ws) =
      if dueBool now w then w.id :: dueIds now ws else dueIds now ws := by
  unfold dueIds
  rw [List.filter_cons]
  split <;> simp

theorem setFired_nil (x : Reminder) : setFired [] x = x := by
  simp [setFired]

theorem setFired_id (s : List Nat) (x : Reminder) : (setFired s x).id = x.id := by
  unfold setFired
  split <;> rfl

theorem setFired_mark (s : List Nat) (j : Nat) (x : Reminder) :
    setFired s (if x.id = j then { x with notified := true } else x) =
      setFired (j :: s) x := by
  by_cases h : x.id = j
  · simp only [h, if_pos rfl]
    unfold setFired
    simp [h]
  · simp only [if_neg h]
    unfold setFired
    simp [List.mem_cons, h]

theorem foldl_processRow_fst (now : DateTime) :
    ∀ (rows : List Reminder) (acc : DB × List Event),
      (rows.foldl (processRow now) acc).1 =
        { acc.1 with reminders := acc.1.reminders.map (setFired (dueIds now rows)) } := by
  intro rows
  induction rows with
  | nil =>
    intro acc
    show acc.1 = { acc.1 with reminders := acc.1.reminders.map (setFired (dueIds now [])) }
    rw [show dueIds now [] = [] from rfl, funext setFired_nil, List.map_id']
  | cons w ws ih =>
    intro acc
    rw [List.foldl_cons, processRow_eq, dueIds_cons]
    by_cases hw : dueBool now w
    · rw [if_pos hw, if_pos hw, ih]
      unfold mark_reminder_notified
      simp only [List.map_map]
      congr 1
      apply List.map_congr_left
      intro a _
      exact setFired_mark _ _ _
    · rw [if_neg hw, if_neg hw]
      exact ih acc

theorem foldl_processRow_snd (now : DateTime) :
    ∀ (rows : List Reminder) (acc : DB × List Event),
      (rows.foldl (processRow now) acc).2 = acc.2 ++ rows.flatMap (traceFor now) := by
  intro rows
  induction rows with
  | nil =>
    intro acc
    simp
  | cons w ws ih =>
    intro acc
    rw [List.foldl_cons, processRow_eq]
    by_cases hw : dueBool now w
    · rw [if_pos hw, ih]
      simp [traceFor, hw]
    · rw [if_neg hw, ih]
      simp [traceFor, hw]

theorem pollCycle_reminders (now : DateTime) (db : DB) :
    (pollCycle now db).reminders =
      db.reminders.map (setFired (dueIds now (get_reminders_from_db false db))) := by
  unfold pollCycle pollCycleRun
  rw [foldl_processRow_fst]

theorem pollCycle_nextId (now : DateTime) (db : DB) :
    (pollCycle now db).nextId = db.nextId := by
  unfold pollCycle pollCycleRun
  rw [foldl_processRow_fst]

theorem pollCycleEvents_eq (now : DateTime) (db : DB) :
    pollCycleEvents now db =
      (get_reminders_from_db false db).flatMap (traceFor now) := by
  unfold pollCycleEvents pollCycleRun
  rw [foldl_processRow_snd]
  rfl

theorem dispatchedIds_append (es es' : List Event) :
    dispatchedIds (es ++ es') = dispatchedIds es ++ dispatchedIds es' := by
  unfold dispatchedIds
  exact List.filterMap_append es es' _

theorem dispatchedIds_flatMap (now : DateTime) :
    ∀ rows : List Reminder,
      dispatchedIds (rows.flatMap (traceFor now)) = dueIds now rows := by
  intro rows
  induction rows with
  | nil => rfl
  | cons w ws ih =>
    rw [List.flatMap_cons, dispatchedIds_append, ih, dueIds_cons]
    by_cases hw : dueBool now w
    · simp [traceFor, hw, dispatchedIds]
    · simp [traceFor, hw, dispatchedIds]

theorem dispatchedIds_pollCycle (now : DateTime) (db : DB) :
    dispatchedIds (pollCycleEvents now db) =
      dueIds now (get_reminders_from_db false db) := by
  rw [pollCycleEvents_eq, dispatchedIds_flatMap]

/-! ### Listing lemmas -/

theorem perm_listAll (db : DB) :
    List.Perm (get_reminders_from_db true db) db.reminders :=
  List.perm_insertionSort remindLe db.reminders

theorem perm_listPending (db : DB) :
    List.Perm (get_reminders_from_db false db)
      (db.reminders.filter (fun r => r.notified == false)) :=
  List.perm_insertionSort remindLe _

theorem sorted_listing (b : Bool) (db : DB) :
    List.Sorted remindLe (get_reminders_from_db b db) := by
  cases b
  · exact List.sorted_insertionSort remindLe _
  · exact List.sorted_insertionSort remindLe _

theorem mem_listAll {db : DB} {x : Reminder} :
    x ∈ get_reminders_from_db true db ↔ x ∈ db.reminders :=
  (perm_listAll db).mem_iff

theorem mem_listPending {db : DB} {x : Reminder} :
    x ∈ get_reminders_from_db false db ↔ x ∈ db.reminders ∧ x.notified = false := by
  rw [(perm_listPending db).mem_iff, List.mem_filter]
  simp

theorem eq_of_mem_of_id_eq {db : DB} (h : db.WF) {x y : Reminder}
    (hx : x ∈ db.reminders) (hy : y ∈ db.reminders) (hid : x.id = y.id) : x = y :=
  List.inj_on_of_nodup_map h.1 hx hy hid

theorem ids_nodup_pending (db : DB) (h : db.WF) :
    ((get_reminders_from_db false db).map Reminder.id).Nodup := by
  have hsub : List.Sublist
      ((db.reminders.filter (fun r => r.notified == false)).map Reminder.id)
      (db.reminders.map Reminder.id) :=
    (List.filter_sublist db.reminders).map Reminder.id
  exact (((perm_listPending db).map Reminder.id).nodup_iff).mpr (h.1.sublist hsub)

theorem dueIds_nodup (db : DB) (now : DateTime) (h : db.WF) :
    (dueIds now (get_reminders_from_db false db)).Nodup := by
  have hsub : List.Sublist
      (((get_reminders_from_db false db).filter (dueBool now)).map Reminder.id)
      ((get_reminders_from_db false db).map Reminder.id) :=
    (List.filter_sublist _).map Reminder.id
  exact (ids_nodup_pending db h).sublist hsub

theorem mem_dueIds {now : DateTime} {rows : List Reminder} {i : Nat} :
    i ∈ dueIds now rows ↔ ∃ r, r ∈ rows ∧ dueBool now r = true ∧ r.id = i := by
  unfold dueIds
  simp [List.mem_filter, and_assoc]

/-! ### The stable sort commutes with filtering -/

theorem orderedInsert_eq_cons (x : Reminder) (l : List Reminder)
    (h : ∀ z ∈ l, remindLe x z) :
    List.orderedInsert remindLe x l = x :: l := by
  cases l with
  | nil => rfl
  | cons b t => exact List.orderedInsert_of_le _ _ (h b (List.mem_cons_self b t))

theorem filter_orderedInsert (p : Reminder → Bool) (x : Reminder) :
    ∀ l : List Reminder, List.Sorted remindLe l →
      (List.orderedInsert remindLe x l).filter p =
        if p x then List.orderedInsert remindLe x (l.filter p) else l.filter p := by
  intro l
  induction l with
  | nil =>
    intro _
    by_cases hp : p x <;> simp [List.orderedInsert, hp]
  | cons b t ih =>
    intro hs
    rw [List.sorted_cons] at hs
    obtain ⟨hb, ht⟩ := hs
    by_cases hxb : remindLe x b
    · rw [List.orderedInsert_of_le _ _ hxb]
      by_cases hp : p x
      · rw [if_pos hp, List.filter_cons, if_pos (by exact hp)]
        refine (orderedInsert_eq_cons x _ ?_).symm
        intro z hz
        rw [List.mem_filter] at hz
        rcases List.mem_cons.mp hz.1 with hzb | hzt
        · exact hzb ▸ hxb
        · exact IsTrans.trans _ _ _ hxb (hb z hzt)
      · rw [if_neg hp, List.filter_cons, if_neg (by exact hp)]
    · simp only [List.orderedInsert, if_neg hxb]
      by_cases hp : p x
      · by_cases hpb : p b
        · rw [List.filter_cons, if_pos (by exact hpb), ih ht, if_pos hp, if_pos hp,
            List.filter_cons, if_pos (by exact hpb)]
          simp only [List.orderedInsert, if_neg hxb]
        · rw [List.filter_cons, if_neg (by exact hpb), ih ht, if_pos hp, if_pos hp,
            List.filter_cons, if_neg (by exact hpb)]
      · by_cases hpb : p b
        · rw [List.filter_cons, if_pos (by exact hpb), ih ht, if_neg hp, if_neg hp,
            List.filter_cons, if_pos (by exact hpb)]
        · rw [List.filter_cons, if_neg (by exact hpb), ih ht, if_neg hp, if_neg hp,
            List.filter_cons, if_neg (by exact hpb)]

theorem insertionSort_filter (p : Reminder → Bool) (l : List Reminder) :
    List.insertionSort remindLe (l.filter p) =
      (List.insertionSort remindLe l).filter p := by
  induction l with
  | nil => rfl
  | cons b t ih =>
    rw [List.filter_cons]
    by_cases hpb : p b
    · rw [if_pos (by exact hpb)]
      simp only [List.insertionSort]
      rw [ih, filter_orderedInsert p b _ (List.sorted_insertionSort remindLe t),
        if_pos hpb]
    · rw [if_neg (by exact hpb)]
      simp only [List.insertionSort]
      rw [ih, filter_orderedInsert p b _ (List.sorted_insertionSort remindLe t),
        if_neg hpb]

/-! ### Claims -/

/-- C1: every pending reminder whose `remind_datetime` parses to `rem_dt` with
`rem_dt <= now` (also arbitrarily far in the past) is, after one poll cycle
captured at `now`, stored with `notified = true`, and exactly one
notification is dispatched for its id during that cycle. -/
theorem c1_due_pending_fires_once
    (db : DB) (now : DateTime) (r : Reminder) (rem_dt : DateTime)
    (hwf : db.WF) (hr : r ∈ db.reminders) (hpend : r.notified = false)
    (hparse : parseRemindDT r.remind_datetime = some rem_dt)
    (hdue : rem_dt.le now = true) :
    { r with notified := true } ∈ (pollCycle now db).reminders ∧
    (∀ x ∈ (pollCycle now db).reminders, x.id = r.id →
      x = { r with notified := true }) ∧
    (dispatchedIds (pollCycleEvents now db)).count r.id = 1 := by
  have hdur : dueBool now r = true := by unfold dueBool; rw [hparse]; exact hdue
  have hrp : r ∈ get_reminders_from_db false db := mem_listPending.mpr ⟨hr, hpend⟩
  have hmem : r.id ∈ dueIds now (get_reminders_from_db false db) :=
    mem_dueIds.mpr ⟨r, hrp, hdur, rfl⟩
  have hset : setFired (dueIds now (get_reminders_from_db false db)) r =
      { r with notified := true } := by
    unfold setFired; rw [if_pos hmem]
  refine ⟨?_, ?_, ?_⟩
  · rw [pollCycle_reminders]
    exact hset ▸ List.mem_map_of_mem _ hr
  · intro x hx hid
    rw [pollCycle_reminders] at hx
    obtain ⟨y, hy, hxy⟩ := List.mem_map.mp hx
    have hyid : y.id = r.id := by rw [← hid, ← hxy, setFired_id]
    have hyr : y = r := eq_of_mem_of_id_eq hwf hy hr hyid
    rw [← hxy, hyr, hset]
  · rw [dispatchedIds_pollCycle]
    exact List.count_eq_one_of_mem (dueIds_nodup db now hwf) hmem

/-- C5: a poll cycle captured at `now` leaves every reminder whose parsed
`remind_datetime` is strictly greater than `now` untouched, and dispatches no
notification for it. -/
theorem c5_future_reminder_untouched
    (db : DB) (now : DateTime) (r : Reminder) (rem_dt : DateTime)
    (hwf : db.WF) (hr : r ∈ db.reminders)
    (hparse : parseRemindDT r.remind_datetime = some rem_dt)
    (hfut : rem_dt.le now = false) :
    (∀ x ∈ (pollCycle now db).reminders, x.id = r.id → x = r) ∧
    r.id ∉ dispatchedIds (pollCycleEvents now db) := by
  have hdur : dueBool now r = false := by unfold dueBool; rw [hparse]; exact hfut
  have hnot : r.id ∉ dueIds now (get_reminders_from_db false db) := by
    intro hmem
    obtain ⟨w, hwp, hwdue, hwid⟩ := mem_dueIds.mp hmem
    have hw : w ∈ db.reminders := (mem_listPending.mp hwp).1
    have hwr : w = r := eq_of_mem_of_id_eq hwf hw hr hwid
    rw [hwr, hdur] at hwdue
    exact Bool.false_ne_true hwdue
  have hset : setFired (dueIds now (get_reminders_from_db false db)) r = r := by
    unfold setFired; rw [if_neg hnot]
  refine ⟨?_, ?_⟩
  · intro x hx hid
    rw [pollCycle_reminders] at hx
    obtain ⟨y, hy, hxy⟩ := List.mem_map.mp hx
    have hyid : y.id = r.id := by rw [← hid, ← hxy, setFired_id]
    have hyr : y = r := eq_of_mem_of_id_eq hwf hy hr hyid
    rw [← hxy, hyr, hset]
  · rw [dispatchedIds_pollCycle]
    exact hnot

/-- C9: a stored pending reminder whose `remind_datetime` does not parse is
silently skipped by a poll cycle at any `now`: it is left untouched, no
notification is dispatched for it, and it is still listed as pending
afterwards. -/
theorem c9_unparseable_skipped_forever
    (db : DB) (now : DateTime) (r : Reminder)
    (hwf : db.WF) (hr : r ∈ db.reminders) (hpend : r.notified = false)
    (hparse : parseRemindDT r.remind_datetime = none) :
    (∀ x ∈ (pollCycle now db).reminders, x.id = r.id → x = r) ∧
    r.id ∉ dispatchedIds (pollCycleEvents now db) ∧
    r ∈ get_reminders_from_db false (pollCycle now db) := by
  have hdur : dueBool now r = false := by unfold dueBool; rw [hparse]
  have hnot : r.id ∉ dueIds now (get_reminders_from_db false db) := by
    intro hmem
    obtain ⟨w, hwp, hwdue, hwid⟩ := mem_dueIds.mp hmem
    have hw : w ∈ db.reminders := (mem_listPending.mp hwp).1
    have hwr : w = r := eq_of_mem_of_id_eq hwf hw hr hwid
    rw [hwr, hdur] at hwdue
    exact Bool.false_ne_true hwdue
  have hset : setFired (dueIds now (get_reminders_from_db false db)) r = r := by
    unfold setFired; rw [if_neg hnot]
  refine ⟨?_, ?_, ?_⟩
  · intro x hx hid
    rw [pollCycle_reminders] at hx
    obtain ⟨y, hy, hxy⟩ := List.mem_map.mp hx
    have hyid : y.id = r.id := by rw [← hid, ← hxy, setFired_id]
    have hyr : y = r := eq_of_mem_of_id_eq hwf hy hr hyid
    rw [← hxy, hyr, hset]
  · rw [dispatchedIds_pollCycle]
    exact hnot
  · refine mem_listPending.mpr ⟨?_, hpend⟩
    rw [pollCycle_reminders]
    exact hset ▸ List.mem_map_of_mem _ hr

/-- C4: `listPending` (`include_notified=False`) returns exactly the reminders
with `notified = false` and `listAll` (`include_notified=True`) returns all
reminders, both ordered ascending by the `remind_datetime` (fireAt) text —
the order `ORDER BY remind_datetime` gives a TEXT column. -/
theorem c4_listing_contents_and_order (db : DB) :
    List.Perm (get_reminders_from_db false db)
      (db.reminders.filter (fun r => r.notified == false)) ∧
    (∀ x, x ∈ get_reminders_from_db false db ↔
      x ∈ db.reminders ∧ x.notified = false) ∧
    List.Perm (get_reminders_from_db true db) db.reminders ∧
    (∀ x, x ∈ get_reminders_from_db true db ↔ x ∈ db.reminders) ∧
    List.Sorted remindLe (get_reminders_from_db false db) ∧
    List.Sorted remindLe (get_reminders_from_db true db) :=
  ⟨perm_listPending db, fun _ => mem_listPending, perm_listAll db,
    fun _ => mem_listAll, sorted_listing false db, sorted_listing true db⟩

/-- C10: for every store state, `listPending` is exactly `listAll` filtered to
the unnotified reminders, order included (the sort is stable, so the two
views agree on fields and relative position of every pending reminder). -/
theorem c10_pending_eq_filter_listAll (db : DB) :
    get_reminders_from_db false db =
      (get_reminders_from_db true db).filter (fun r => r.notified == false) :=
  insertionSort_filter (fun r => r.notified == false) db.reminders

/-- A due row of the snapshot contributes its `marked` event strictly before
its `dispatched` event, and rows are processed in snapshot order; hence in
the flattened trace every `dispatched r` is preceded by `marked r.id`. -/
theorem flatMap_trace_marked_first (now : DateTime) :
    ∀ (rows : List Reminder) (l₁ l₂ : List Event) (r : Reminder),
      rows.flatMap (traceFor now) = l₁ ++ Event.dispatched r :: l₂ →
      Event.marked r.id ∈ l₁ := by
  intro rows
  induction rows with
  | nil =>
    intro l₁ l₂ r h
    rw [List.flatMap_nil] at h
    exact absurd h.symm (List.append_ne_nil_of_right_ne_nil l₁ (List.cons_ne_nil _ _))
  | cons w ws ih =>
    intro l₁ l₂ r h
    rw [List.flatMap_cons] at h
    by_cases hw : dueBool now w
    · rw [show traceFor now w = [Event.marked w.id, Event.dispatched w] from
        by unfold traceFor; rw [if_pos hw]] at h
      cases l₁ with
      | nil => simp at h
      | cons a l₁ =>
        rw [List.cons_append] at h
        obtain ⟨ha, h⟩ := List.cons.inj h
        cases l₁ with
        | nil =>
          obtain ⟨hd, -⟩ := List.cons.inj h
          injection hd with hwr
          rw [← ha, hwr]
          exact List.mem_singleton.mpr rfl
        | cons b l₁ =>
          rw [List.cons_append] at h
          obtain ⟨-, h⟩ := List.cons.inj h
          exact List.mem_cons_of_mem _ (List.mem_cons_of_mem _ (ih l₁ l₂ r h))
    · rw [show traceFor now w = [] from by unfold traceFor; rw [if_neg hw],
        List.nil_append] at h
      exact ih l₁ l₂ r h

/-- C3: within a poll cycle, whenever a notification for a reminder appears in
the event trace, the `markFired` call for that reminder's id appears earlier
in the trace: a crash between the two steps loses the notification, never
duplicates it. -/
theorem c3_marked_before_dispatched
    (db : DB) (now : DateTime) (l₁ l₂ : List Event) (r : Reminder)
    (h : pollCycleEvents now db = l₁ ++ Event.dispatched r :: l₂) :
    Event.marked r.id ∈ l₁ := by
  rw [pollCycleEvents_eq] at h
  exact flatMap_trace_marked_first now _ l₁ l₂ r h

/-- C2: `notified` is monotone — once true it stays true under insert, delete,
mark and a poll cycle; a poll cycle flips it only for reminders that parse
and are due at `now`; and an already-notified reminder is never dispatched
again by any later cycle. -/
theorem c2_fired_at_most_once (db : DB) (now : DateTime)
    (med dose dt note : String) (j : Nat) (hwf : db.WF) :
    (∀ x ∈ db.reminders, x.notified = true →
      ∀ y ∈ (add_reminder_to_db med dose dt note db).reminders,
        y.id = x.id → y.notified = true) ∧
    (∀ x ∈ db.reminders, x.notified = true →
      ∀ y ∈ (delete_reminder_from_db j db).reminders,
        y.id = x.id → y.notified = true) ∧
    (∀ x ∈ db.reminders, x.notified = true →
      ∀ y ∈ (mark_reminder_notified j db).reminders,
        y.id = x.id → y.notified = true) ∧
    (∀ x ∈ db.reminders, x.notified = true →
      ∀ y ∈ (pollCycle now db).reminders, y.id = x.id → y.notified = true) ∧
    (∀ x ∈ db.reminders, x.notified = false →
      ∀ y ∈ (pollCycle now db).reminders, y.id = x.id → y.notified = true →
        ∃ rem_dt, parseRemindDT x.remind_datetime = some rem_dt ∧
          rem_dt.le now = true) ∧
    (∀ x ∈ db.reminders, x.notified = true →
      x.id ∉ dispatchedIds (pollCycleEvents now db)) := by
  refine ⟨?_, ?_, ?_, ?_, ?_, ?_⟩
  · intro x hx hxt y hy hid
    unfold add_reminder_to_db at hy
    rcases List.mem_append.mp hy with h1 | h1
    · rw [eq_of_mem_of_id_eq hwf h1 hx hid]
      exact hxt
    · have hy2 : y = ⟨db.nextId, med, dose, dt, false, note⟩ :=
        List.mem_singleton.mp h1
      have hlt := hwf.2 x hx
      rw [hy2] at hid
      simp only at hid
      omega
  · intro x hx hxt y hy hid
    unfold delete_reminder_from_db at hy
    rw [eq_of_mem_of_id_eq hwf (List.mem_filter.mp hy).1 hx hid]
    exact hxt
  · intro x hx hxt y hy hid
    unfold mark_reminder_notified at hy
    obtain ⟨z, hz, hzy⟩ := List.mem_map.mp hy
    have hzid : z.id = x.id := by
      rw [← hid, ← hzy]
      split <;> rfl
    rw [eq_of_mem_of_id_eq hwf hz hx hzid] at hzy
    rw [← hzy]
    split
    · rfl
    · exact hxt
  · intro x hx hxt y hy hid
    rw [pollCycle_reminders] at hy
    obtain ⟨z, hz, hzy⟩ := List.mem_map.mp hy
    have hzid : z.id = x.id := by rw [← hid, ← hzy, setFired_id]
    rw [eq_of_mem_of_id_eq hwf hz hx hzid] at hzy
    rw [← hzy]
    unfold setFired
    split
    · rfl
    · exact hxt
  · intro x hx hxf y hy hid hyt
    rw [pollCycle_reminders] at hy
    obtain ⟨z, hz, hzy⟩ := List.mem_map.mp hy
    have hzid : z.id = x.id := by rw [← hid, ← hzy, setFired_id]
    rw [eq_of_mem_of_id_eq hwf hz hx hzid] at hzy
    by_cases hmem : x.id ∈ dueIds now (get_reminders_from_db false db)
    · obtain ⟨w, hwp, hwdue, hwid⟩ := mem_dueIds.mp hmem
      have hw : w ∈ db.reminders := (mem_listPending.mp hwp).1
      rw [eq_of_mem_of_id_eq hwf hw hx hwid] at hwdue
      unfold dueBool at hwdue
      cases hp : parseRemindDT x.remind_datetime with
      | none => rw [hp] at hwdue; exact absurd hwdue (Bool.false_ne_true)
      | some rem_dt => rw [hp] at hwdue; exact ⟨rem_dt, rfl, hwdue⟩
    · have : setFired (dueIds now (get_reminders_from_db false db)) x = x := by
        unfold setFired; rw [if_neg hmem]
      rw [this] at hzy
      rw [← hzy] at hyt
      rw [hxf] at hyt
      exact absurd hyt Bool.false_ne_true
  · intro x hx hxt hmem
    rw [dispatchedIds_pollCycle] at hmem
    obtain ⟨w, hwp, hwdue, hwid⟩ := mem_dueIds.mp hmem
    obtain ⟨hw, hwf'⟩ := mem_listPending.mp hwp
    rw [eq_of_mem_of_id_eq hwf hw hx hwid] at hwf'
    rw [hxt] at hwf'
    exact Bool.noConfusion hwf'

/-- C6: the create path rejects an empty medicine name and a timestamp that
does not parse as `YYYY-MM-DD HH:MM`, surfacing the error synchronously and
inserting nothing; for valid inputs it inserts the record with the fresh
AUTOINCREMENT id `db.nextId` (distinct from every stored id) and
`notified = false`. -/
theorem c6_create_validates
    (name dose dt_str note : String) (db : DB) (hwf : db.WF) :
    (name.trim = "" →
      on_add_reminder name dose dt_str note db =
        Except.error "Enter medicine name and date/time.") ∧
    (parseRemindDT dt_str.trim = none →
      ∃ msg, on_add_reminder name dose dt_str note db = Except.error msg) ∧
    (∀ rem_dt, name.trim ≠ "" → parseRemindDT dt_str.trim = some rem_dt →
      on_add_reminder name dose dt_str note db =
        Except.ok (add_reminder_to_db name.trim dose.trim dt_str.trim note.trim db) ∧
      (add_reminder_to_db name.trim dose.trim dt_str.trim note.trim db).reminders =
        db.reminders ++ [⟨db.nextId, name.trim, dose.trim, dt_str.trim, false, note.trim⟩] ∧
      (add_reminder_to_db name.trim dose.trim dt_str.trim note.trim db).nextId = db.nextId + 1 ∧
      ∀ x ∈ db.reminders, x.id ≠ db.nextId) := by
  refine ⟨?_, ?_, ?_⟩
  · intro h
    unfold on_add_reminder
    rw [if_pos (Or.inl h)]
  · intro h
    unfold on_add_reminder
    by_cases hn : name.trim = "" ∨ dt_str.trim = ""
    · exact ⟨_, by rw [if_pos hn]⟩
    · exact ⟨"Date/time must be in format YYYY-MM-DD HH:MM", by rw [if_neg hn, h]⟩
  · intro rem_dt hn hp
    have hne : dt_str.trim ≠ "" := by
      intro h0
      have h1 : parseRemindDT "" = none := rfl
      rw [h0, h1] at hp
      exact Option.noConfusion hp
    refine ⟨?_, rfl, rfl, ?_⟩
    · unfold on_add_reminder
      rw [if_neg (by intro hor; rcases hor with h1 | h1; exact hn h1; exact hne h1), hp]
    · intro x hx
      exact Nat.ne_of_lt (hwf.2 x hx)

/-- C7 amended: `mark_reminder_notified(id)` sets `notified = true` for the
stored reminder with that id, changes nothing else, is idempotent — but
marking an absent id is a silent no-op: the `NotFoundError` of the claim does
not exist in the code. -/
theorem c7_markFired_idempotent_silent (j : Nat) (db : DB) :
    (∀ x ∈ db.reminders, x.id = j →
      { x with notified := true } ∈ (mark_reminder_notified j db).reminders) ∧
    (∀ y ∈ (mark_reminder_notified j db).reminders,
      ∃ x, x ∈ db.reminders ∧
        y = if x.id = j then { x with notified := true } else x) ∧
    mark_reminder_notified j (mark_reminder_notified j db) =
      mark_reminder_notified j db ∧
    ((∀ x ∈ db.reminders, x.id ≠ j) → mark_reminder_notified j db = db) := by
  refine ⟨?_, ?_, ?_, ?_⟩
  · intro x hx hid
    unfold mark_reminder_notified
    refine List.mem_map.mpr ⟨x, hx, ?_⟩
    show (if x.id = j then { x with notified := true } else x) = { x with notified := true }
    rw [if_pos hid]
  · intro y hy
    unfold mark_reminder_notified at hy
    obtain ⟨x, hx, hxy⟩ := List.mem_map.mp hy
    exact ⟨x, hx, hxy.symm⟩
  · unfold mark_reminder_notified
    simp only [List.map_map]
    congr 1
    apply List.map_congr_left
    intro a _
    simp only [Function.comp_apply]
    by_cases h : a.id = j
    · simp [h]
    · simp [h]
  · intro h
    unfold mark_reminder_notified
    have h2 : ∀ a ∈ db.reminders,
        (fun r => if r.id = j then { r with notified := true } else r) a =
          (fun r => r) a := fun a ha => if_neg (h a ha)
    rw [List.map_congr_left h2, List.map_id']

/-- C7 counterexample: marking id 7 on an empty store silently returns the
unchanged store and raises nothing, where the spec's contract
(`markFiredSpec`, modelled from the spec's words) demands `NotFoundError`. -/
theorem c7_counterexample :
    mark_reminder_notified 7 { reminders := [], nextId := 1 } =
      { reminders := [], nextId := 1 } ∧
    markFiredSpec 7 { reminders := [], nextId := 1 } =
      Except.error "NotFoundError" :=
  ⟨rfl, rfl⟩

/-- C8 amended: `delete_reminder_from_db(id)` removes the reminder with that
id, so it appears in neither listing afterwards, and keeps every other
reminder — but deleting an absent id is a silent no-op: the `NotFoundError`
of the claim does not exist in the code. -/
theorem c8_delete_removes_silent (j : Nat) (db : DB) :
    (∀ b : Bool, ∀ x ∈ get_reminders_from_db b (delete_reminder_from_db j db),
      x.id ≠ j) ∧
    (∀ x ∈ (delete_reminder_from_db j db).reminders, x ∈ db.reminders) ∧
    (∀ x ∈ db.reminders, x.id ≠ j →
      x ∈ (delete_reminder_from_db j db).reminders) ∧
    ((∀ x ∈ db.reminders, x.id ≠ j) → delete_reminder_from_db j db = db) := by
  refine ⟨?_, ?_, ?_, ?_⟩
  · intro b x hx
    have hx2 : x ∈ (delete_reminder_from_db j db).reminders := by
      cases b
      · exact (mem_listPending.mp hx).1
      · exact mem_listAll.mp hx
    unfold delete_reminder_from_db at hx2
    have h3 := (List.mem_filter.mp hx2).2
    simpa using h3
  · intro x hx
    unfold delete_reminder_from_db at hx
    exact (List.mem_filter.mp hx).1
  · intro x hx hne
    unfold delete_reminder_from_db
    exact List.mem_filter.mpr ⟨hx, by simpa using hne⟩
  · intro h
    unfold delete_reminder_from_db
    have h2 : db.reminders.filter (fun r => decide (r.id ≠ j)) = db.reminders :=
      List.filter_eq_self.mpr (fun a ha => by simpa using h a ha)
    rw [h2]

/-- C8 counterexample: deleting id 7 from an empty store silently returns the
unchanged store and raises nothing, where the spec's contract (`deleteSpec`,
modelled from the spec's words) demands `NotFoundError`. -/
theorem c8_counterexample :
    delete_reminder_from_db 7 { reminders := [], nextId := 1 } =
      { reminders := [], nextId := 1 } ∧
    deleteSpec 7 { reminders := [], nextId := 1 } =
      Except.error "NotFoundError" :=
  ⟨rfl, rfl⟩

/-- C1 witness: spec §8.6 — "Aspirin" due 08:00, polled at 08:05, is fired and
dispatched exactly once. -/
theorem c1_witness :
    sampleDB.WF ∧ sampleRem1 ∈ sampleDB.reminders ∧ sampleRem1.notified = false ∧
    parseRemindDT sampleRem1.remind_datetime = some ⟨2024, 1, 1, 8, 0⟩ ∧
    DateTime.le ⟨2024, 1, 1, 8, 0⟩ sampleNow = true ∧
    ({ sampleRem1 with notified := true } ∈ (pollCycle sampleNow sampleDB).reminders ∧
      (∀ x ∈ (pollCycle sampleNow sampleDB).reminders, x.id = sampleRem1.id →
        x = { sampleRem1 with notified := true }) ∧
      (dispatchedIds (pollCycleEvents sampleNow sampleDB)).count sampleRem1.id = 1) :=
  ⟨by decide, by decide, rfl, rfl, rfl,
    c1_due_pending_fires_once sampleDB sampleNow sampleRem1 ⟨2024, 1, 1, 8, 0⟩
      (by decide) (by decide) rfl rfl rfl⟩

/-- C2 witness: the monotonicity and gating conjunction instantiated on the
sample store, an insert of "Calcium", and id 2. -/
theorem c2_witness :
    sampleDB.WF ∧
    ((∀ x ∈ sampleDB.reminders, x.notified = true →
      ∀ y ∈ (add_reminder_to_db "Calcium" "1" "2024-03-01 10:00" "" sampleDB).reminders,
        y.id = x.id → y.notified = true) ∧
    (∀ x ∈ sampleDB.reminders, x.notified = true →
      ∀ y ∈ (delete_reminder_from_db 2 sampleDB).reminders,
        y.id = x.id → y.notified = true) ∧
    (∀ x ∈ sampleDB.reminders, x.notified = true →
      ∀ y ∈ (mark_reminder_notified 2 sampleDB).reminders,
        y.id = x.id → y.notified = true) ∧
    (∀ x ∈ sampleDB.reminders, x.notified = true →
      ∀ y ∈ (pollCycle sampleNow sampleDB).reminders, y.id = x.id → y.notified = true) ∧
    (∀ x ∈ sampleDB.reminders, x.notified = false →
      ∀ y ∈ (pollCycle sampleNow sampleDB).reminders, y.id = x.id → y.notified = true →
        ∃ rem_dt, parseRemindDT x.remind_datetime = some rem_dt ∧
          rem_dt.le sampleNow = true) ∧
    (∀ x ∈ sampleDB.reminders, x.notified = true →
      x.id ∉ dispatchedIds (pollCycleEvents sampleNow sampleDB))) :=
  ⟨by decide,
    c2_fired_at_most_once sampleDB sampleNow "Calcium" "1" "2024-03-01 10:00" "" 2
      (by decide)⟩

/-- C3 witness: in the sample cycle the trace is
`[marked 1, dispatched sampleRem1]`, and the mark indeed precedes the
dispatch. -/
theorem c3_witness :
    pollCycleEvents sampleNow sampleDB =
      [Event.marked 1] ++ Event.dispatched sampleRem1 :: [] ∧
    Event.marked sampleRem1.id ∈ [Event.marked 1] :=
  ⟨rfl, c3_marked_before_dispatched sampleDB sampleNow [Event.marked 1] [] sampleRem1 rfl⟩

/-- C4 witness: the listing characterization instantiated on the sample
store. -/
theorem c4_witness :
    List.Perm (get_reminders_from_db false sampleDB)
      (sampleDB.reminders.filter (fun r => r.notified == false)) ∧
    (∀ x, x ∈ get_reminders_from_db false sampleDB ↔
      x ∈ sampleDB.reminders ∧ x.notified = false) ∧
    List.Perm (get_reminders_from_db true sampleDB) sampleDB.reminders ∧
    (∀ x, x ∈ get_reminders_from_db true sampleDB ↔ x ∈ sampleDB.reminders) ∧
    List.Sorted remindLe (get_reminders_from_db false sampleDB) ∧
    List.Sorted remindLe (get_reminders_from_db true sampleDB) :=
  c4_listing_contents_and_order sampleDB

/-- C5 witness: "Ibuprofen" due 2024-01-02 09:30 is untouched by the cycle at
2024-01-01 08:05. -/
theorem c5_witness :
    sampleDB.WF ∧ sampleRem2 ∈ sampleDB.reminders ∧
    parseRemindDT sampleRem2.remind_datetime = some ⟨2024, 1, 2, 9, 30⟩ ∧
    DateTime.le ⟨2024, 1, 2, 9, 30⟩ sampleNow = false ∧
    ((∀ x ∈ (pollCycle sampleNow sampleDB).reminders, x.id = sampleRem2.id →
        x = sampleRem2) ∧
      sampleRem2.id ∉ dispatchedIds (pollCycleEvents sampleNow sampleDB)) :=
  ⟨by decide, by decide, rfl, rfl,
    c5_future_reminder_untouched sampleDB sampleNow sampleRem2 ⟨2024, 1, 2, 9, 30⟩
      (by decide) (by decide) rfl rfl⟩

/-- C6 witness: the valid §8.6 create and the two rejection branches,
instantiated on the sample store. -/
theorem c6_witness :
    sampleDB.WF ∧
    (("Aspirin".trim = "" →
      on_add_reminder "Aspirin" "1 tablet" "2024-01-01 08:00" "" sampleDB =
        Except.error "Enter medicine name and date/time.") ∧
    (parseRemindDT "2024-01-01 08:00".trim = none →
      ∃ msg, on_add_reminder "Aspirin" "1 tablet" "2024-01-01 08:00" "" sampleDB =
        Except.error msg) ∧
    (∀ rem_dt, "Aspirin".trim ≠ "" →
      parseRemindDT "2024-01-01 08:00".trim = some rem_dt →
      on_add_reminder "Aspirin" "1 tablet" "2024-01-01 08:00" "" sampleDB =
        Except.ok (add_reminder_to_db "Aspirin".trim "1 tablet".trim
          "2024-01-01 08:00".trim "".trim sampleDB) ∧
      (add_reminder_to_db "Aspirin".trim "1 tablet".trim
          "2024-01-01 08:00".trim "".trim sampleDB).reminders =
        sampleDB.reminders ++
          [⟨sampleDB.nextId, "Aspirin".trim, "1 tablet".trim, "2024-01-01 08:00".trim, false, "".trim⟩] ∧
      (add_reminder_to_db "Aspirin".trim "1 tablet".trim
          "2024-01-01 08:00".trim "".trim sampleDB).nextId = sampleDB.nextId + 1 ∧
      ∀ x ∈ sampleDB.reminders, x.id ≠ sampleDB.nextId)) :=
  ⟨by decide,
    c6_create_validates "Aspirin" "1 tablet" "2024-01-01 08:00" "" sampleDB (by decide)⟩

/-- C7 witness: the amended markFired contract instantiated at id 3 on the
sample store. -/
theorem c7_witness :
    (∀ x ∈ sampleDB.reminders, x.id = 3 →
      { x with notified := true } ∈ (mark_reminder_notified 3 sampleDB).reminders) ∧
    (∀ y ∈ (mark_reminder_notified 3 sampleDB).reminders,
      ∃ x, x ∈ sampleDB.reminders ∧
        y = if x.id = 3 then { x with notified := true } else x) ∧
    mark_reminder_notified 3 (mark_reminder_notified 3 sampleDB) =
      mark_reminder_notified 3 sampleDB ∧
    ((∀ x ∈ sampleDB.reminders, x.id ≠ 3) →
      mark_reminder_notified 3 sampleDB = sampleDB) :=
  c7_markFired_idempotent_silent 3 sampleDB

/-- C8 witness: the amended delete contract instantiated at id 3 on the
sample store. -/
theorem c8_witness :
    (∀ b : Bool, ∀ x ∈ get_reminders_from_db b (delete_reminder_from_db 3 sampleDB),
      x.id ≠ 3) ∧
    (∀ x ∈ (delete_reminder_from_db 3 sampleDB).reminders, x ∈ sampleDB.reminders) ∧
    (∀ x ∈ sampleDB.reminders, x.id ≠ 3 →
      x ∈ (delete_reminder_from_db 3 sampleDB).reminders) ∧
    ((∀ x ∈ sampleDB.reminders, x.id ≠ 3) →
      delete_reminder_from_db 3 sampleDB = sampleDB) :=
  c8_delete_removes_silent 3 sampleDB

/-- C9 witness: "Zinc" with timestamp text "not-a-date" is skipped by the
sample cycle and still pending afterwards. -/
theorem c9_witness :
    sampleDB.WF ∧ sampleRemBad ∈ sampleDB.reminders ∧ sampleRemBad.notified = false ∧
    parseRemindDT sampleRemBad.remind_datetime = none ∧
    ((∀ x ∈ (pollCycle sampleNow sampleDB).reminders, x.id = sampleRemBad.id →
        x = sampleRemBad) ∧
      sampleRemBad.id ∉ dispatchedIds (pollCycleEvents sampleNow sampleDB) ∧
      sampleRemBad ∈ get_reminders_from_db false (pollCycle sampleNow sampleDB)) :=
  ⟨by decide, by decide, rfl, rfl,
    c9_unparseable_skipped_forever sampleDB sampleNow sampleRemBad
      (by decide) (by decide) rfl rfl⟩

/-- C10 witness: the pending view equals the filtered full view on the sample
store. -/
theorem c10_witness :
    get_reminders_from_db false sampleDB =
      (get_reminders_from_db true sampleDB).filter (fun r => r.notified == false) :=
  c10_pending_eq_filter_listAll sampleDB
